import Mathlib

/-!
Shallow embedding of the two source files of mdbook-typst-pdf:
`src/fonts.rs` (lazy font cache and font discovery) and `src/export.rs`
(PDF export driver and diagnostic emission), together with theorems
settling the specification claims about them.
-/

namespace MdbookTypstPdf

/-! ## Font model (`src/fonts.rs`) -/

/-- A filesystem path (opaque to the font code). -/
abbrev Path := String

/-- A parsed font face (`typst::text::Font`): the raw bytes it was parsed
from and its index inside a font collection. -/
structure Font where
  data : List Nat
  index : Nat
deriving DecidableEq, Repr

/-- The ambient effects used inside `FontSlot::get`: reading a file from
disk (`fs::read`, which may fail) and parsing a face from bytes at a
collection index (`Font::new`, which may fail). -/
structure FontEnv where
  fsRead : Path → Option (List Nat)
  fontNew : List Nat → Nat → Option Font

/-- The body of the `get_or_init` closure in `FontSlot::get`:
`let data = fs::read(&self.path).ok()?.into(); Font::new(data, self.index)`. -/
def loadFont (env : FontEnv) (path : Path) (index : Nat) : Option Font :=
  match env.fsRead path with
  | none => none
  | some data => env.fontNew data index

/-- `FontSlot`: a font file location plus the `OnceLock<Option<Font>>`
cache cell. `font = none` models an uninitialized `OnceLock`;
`font = some v` models a cell initialized with outcome `v`. -/
structure FontSlot where
  path : Path
  index : Nat
  font : Option (Option Font)

/-- Result of one call to `FontSlot::get`: the returned value, the slot
state afterwards, and whether this call ran the `get_or_init` closure
(i.e. performed the file read and face parse). -/
structure GetResult where
  value : Option Font
  slot : FontSlot
  loaded : Bool

/-- `FontSlot::get`: `self.font.get_or_init(|| { ... }).clone()`.
If the cell is already initialized it returns the cached outcome without
touching the filesystem; otherwise it runs the closure once and stores
its outcome (success or failure) in the cell. -/
def FontSlot.get (s : FontSlot) (env : FontEnv) : GetResult :=
  match s.font with
  | some cached => ⟨cached, s, false⟩
  | none =>
      let v := loadFont env s.path s.index
      ⟨v, { s with font := some v }, true⟩

/-! ## Font discovery (`FontSearcher::search`) -/

/-- `fontdb::Source` of a face: a file path, a shared (memory-mapped)
file path, or raw binary data with no backing path. -/
inductive FaceSource
  | file (path : Path)
  | sharedFile (path : Path)
  | binary
deriving DecidableEq, Repr

/-- Font metadata (`typst::text::FontInfo`) extracted from a face. -/
structure FontInfo where
  family : String
  variant : Nat
deriving DecidableEq, Repr

/-- One face record in the `fontdb::Database`: its source, its index in
its collection, and the outcome of
`db.with_face_data(face.id, FontInfo::new)` (parsing minimal metadata
from the face bytes, which may fail). -/
structure FaceInfo where
  source : FaceSource
  index : Nat
  info : Option FontInfo

/-- `FontSearcher`: the metadata catalog (`FontBook`, a list of
`FontInfo`) and the parallel list of `FontSlot`s. -/
structure FontSearcher where
  book : List FontInfo
  fonts : List FontSlot

/-- `FontSearcher::new()`. -/
def FontSearcher.new : FontSearcher := ⟨[], []⟩

/-- One iteration of the `for face in db.faces()` loop in
`FontSearcher::search`: faces with a binary source are skipped
(`continue`); otherwise, if metadata parsing produced `Some(info)`, the
info is pushed onto the book and a fresh uninitialized slot with the
face's path and collection index is pushed onto the slot list. -/
def searchStep (s : FontSearcher) (face : FaceInfo) : FontSearcher :=
  match face.source with
  | .binary => s
  | .file path | .sharedFile path =>
    match face.info with
    | none => s
    | some info =>
        { book := s.book ++ [info]
          fonts := s.fonts ++ [⟨path, face.index, none⟩] }

/-- Modelled from the spec: the face list of the `fontdb::Database` after
`FontSearcher::search` has loaded it. The repository's own code only
calls `fontdb` (`load_fonts_dir` once per explicit directory, in order,
then `load_system_fonts`); per the spec, each loader appends its faces,
so `db.faces()` enumerates the explicit directories' faces in directory
order followed by the OS-registered faces in platform-defined order.
`fontPaths` gives the faces found in each explicit directory;
`systemFaces` gives the OS-registered faces. -/
def loadDb (fontPaths : List (List FaceInfo)) (systemFaces : List FaceInfo) :
    List FaceInfo :=
  (fontPaths.foldl (fun db dir => db ++ dir) []) ++ systemFaces

/-- `FontSearcher::search`: build the database, then run the face loop
over `db.faces()`. -/
def FontSearcher.search (s : FontSearcher) (fontPaths : List (List FaceInfo))
    (systemFaces : List FaceInfo) : FontSearcher :=
  (loadDb fontPaths systemFaces).foldl searchStep s

/-- The entry (book record, slot) that one face contributes, if any:
`none` exactly when the loop body skips the face. -/
def faceEntry (face : FaceInfo) : Option (FontInfo × FontSlot) :=
  match face.source with
  | .binary => none
  | .file path | .sharedFile path =>
    match face.info with
    | none => none
    | some info => some (info, ⟨path, face.index, none⟩)

theorem searchStep_eq_faceEntry (s : FontSearcher) (face : FaceInfo) :
    searchStep s face =
      match faceEntry face with
      | none => s
      | some e => { book := s.book ++ [e.1], fonts := s.fonts ++ [e.2] } := by
  unfold searchStep faceEntry
  cases face with
  | mk src idx info =>
    cases src <;> cases info <;> rfl

theorem foldl_searchStep_book (faces : List FaceInfo) (s : FontSearcher) :
    (faces.foldl searchStep s).book
      = s.book ++ (faces.filterMap faceEntry).map Prod.fst := by
  induction faces generalizing s with
  | nil => simp
  | cons f fs ih =>
    rw [List.foldl_cons, ih, searchStep_eq_faceEntry]
    cases h : faceEntry f <;> simp [List.filterMap_cons, h]

theorem foldl_searchStep_fonts (faces : List FaceInfo) (s : FontSearcher) :
    (faces.foldl searchStep s).fonts
      = s.fonts ++ (faces.filterMap faceEntry).map Prod.snd := by
  induction faces generalizing s with
  | nil => simp
  | cons f fs ih =>
    rw [List.foldl_cons, ih, searchStep_eq_faceEntry]
    cases h : faceEntry f <;> simp [List.filterMap_cons, h]

/-- **C1.** For every slot in the uninitialized state, `get` runs the
file read and face parse on the first call; every later call — under an
arbitrary, possibly different, filesystem environment — performs no
load, leaves the slot unchanged, and returns exactly the first call's
outcome, whether that outcome was a font or a failure. -/
theorem fontSlot_get_at_most_once (s : FontSlot) (env : FontEnv)
    (h : s.font = none) :
    (s.get env).loaded = true ∧
    (s.get env).value = loadFont env s.path s.index ∧
    ∀ env2 : FontEnv,
      ((s.get env).slot.get env2).value = (s.get env).value ∧
      ((s.get env).slot.get env2).slot = (s.get env).slot ∧
      ((s.get env).slot.get env2).loaded = false := by
  cases s with
  | mk p i cell =>
    cases cell with
    | some v => cases h
    | none =>
      refine ⟨rfl, rfl, fun env2 => ⟨rfl, rfl, rfl⟩⟩

/-- Concrete slot used to witness the caching contract. -/
def slotA : FontSlot := ⟨"DejaVuSans.ttf", 0, none⟩

/-- A filesystem environment in which the slot's file fails to read. -/
def envFail : FontEnv := ⟨fun _ => none, fun _ _ => none⟩

/-- A filesystem environment in which the slot's file reads and parses. -/
def envOk : FontEnv := ⟨fun _ => some [7, 7, 7], fun d i => some ⟨d, i⟩⟩

/-- Witness for C1 at a concrete slot: the first `get` under a failing
filesystem loads once and yields `none`; a second `get`, even under a
filesystem where the read would now succeed, does not retry and returns
the cached failure. -/
theorem fontSlot_get_at_most_once_witness :
    (slotA.get envFail).loaded = true ∧
    (slotA.get envFail).value = none ∧
    ((slotA.get envFail).slot.get envOk).value = (slotA.get envFail).value ∧
    ((slotA.get envFail).slot.get envOk).loaded = false := by
  have h := fontSlot_get_at_most_once slotA envFail rfl
  exact ⟨h.1, h.2.1, (h.2.2 envOk).1, (h.2.2 envOk).2.2⟩

/-- **C2.** For every list of explicit font directories and every OS
enumeration order, `search` produces a book and a slot list in which all
entries contributed by the explicit directories form a contiguous block
strictly preceding all entries contributed by the OS registry. -/
theorem search_tier_order (fontPaths : List (List FaceInfo))
    (systemFaces : List FaceInfo) :
    (FontSearcher.new.search fontPaths systemFaces).book
      = (fontPaths.flatten.filterMap faceEntry).map Prod.fst
        ++ (systemFaces.filterMap faceEntry).map Prod.fst ∧
    (FontSearcher.new.search fontPaths systemFaces).fonts
      = (fontPaths.flatten.filterMap faceEntry).map Prod.snd
        ++ (systemFaces.filterMap faceEntry).map Prod.snd := by
  have hdb : loadDb fontPaths systemFaces = fontPaths.flatten ++ systemFaces := by
    unfold loadDb
    congr 1
    have : ∀ (l : List (List FaceInfo)) (acc : List FaceInfo),
        l.foldl (fun db dir => db ++ dir) acc = acc ++ l.flatten := by
      intro l
      induction l with
      | nil => intro acc; simp
      | cons x xs ih => intro acc; simp [ih, List.append_assoc]
    simpa using this fontPaths []
  constructor
  · rw [FontSearcher.search, hdb, foldl_searchStep_book]
    simp [FontSearcher.new, List.filterMap_append]
  · rw [FontSearcher.search, hdb, foldl_searchStep_fonts]
    simp [FontSearcher.new, List.filterMap_append]

/-- **C3.** Throughout `search`, the book and the slot list stay in
lockstep: after processing any prefix of the database's faces the two
lists have equal length, and the final book and slot list are the two
projections of one list of `(metadata, slot)` pairs, each pair produced
by `faceEntry` from a single face — so the slot at index `i` was created
from the very face whose metadata sits at index `i` in the book. -/
theorem search_parallel_alignment (fontPaths : List (List FaceInfo))
    (systemFaces : List FaceInfo) :
    (∀ n : Nat,
      (((loadDb fontPaths systemFaces).take n).foldl searchStep
          FontSearcher.new).book.length
        = (((loadDb fontPaths systemFaces).take n).foldl searchStep
            FontSearcher.new).fonts.length) ∧
    (FontSearcher.new.search fontPaths systemFaces).book
      = ((loadDb fontPaths systemFaces).filterMap faceEntry).map Prod.fst ∧
    (FontSearcher.new.search fontPaths systemFaces).fonts
      = ((loadDb fontPaths systemFaces).filterMap faceEntry).map Prod.snd := by
  refine ⟨fun n => ?_, ?_, ?_⟩
  · rw [foldl_searchStep_book, foldl_searchStep_fonts]
    simp [FontSearcher.new]
  · rw [FontSearcher.search, foldl_searchStep_book]
    simp [FontSearcher.new]
  · rw [FontSearcher.search, foldl_searchStep_fonts]
    simp [FontSearcher.new]

/-! ## Diagnostics model (`src/export.rs`) -/

/-- An opaque file identifier (`typst::syntax::FileId`). -/
abbrev FileId := Nat

/-- `typst::syntax::Span`: either detached (no location) or pointing
into the file `fid` (the `key` payload stands for the position data the
world resolves to a byte range). -/
inductive Span
  | detached
  | spanned (fid : FileId) (key : Nat)
deriving DecidableEq, Repr

/-- `Span::id()`: `None` exactly for a detached span. -/
def Span.id : Span → Option FileId
  | .detached => none
  | .spanned fid _ => some fid

/-- `typst::diag::Severity` of a source diagnostic. -/
inductive Severity
  | error
  | warning
deriving DecidableEq, Repr

/-- One trace breadcrumb (`Spanned<Tracepoint>`): the loop reads
`point.v.to_string()` and `point.span`. -/
structure TracePoint where
  v : String
  span : Span
deriving DecidableEq, Repr

/-- `typst::diag::SourceDiagnostic`. -/
structure SourceDiagnostic where
  severity : Severity
  span : Span
  message : String
  trace : List TracePoint
  hints : List String
deriving DecidableEq, Repr

/-- Severity of an emitted `codespan_reporting` diagnostic block. -/
inductive DiagSeverity
  | error
  | warning
  | help
deriving DecidableEq, Repr

/-- A primary `codespan_reporting` label: file plus byte range. -/
structure Label where
  fileId : FileId
  range : Nat × Nat
deriving DecidableEq, Repr

/-- One emitted `codespan_reporting::diagnostic::Diagnostic` block. -/
structure Diag where
  severity : DiagSeverity
  message : String
  labels : List Label
  notes : List String
deriving DecidableEq, Repr

/-- `typst::syntax::Source`: immutable source text, as the list of its
codepoints. -/
structure Source where
  text : List Char
deriving DecidableEq, Repr

/-- The parts of `SystemWorld` that diagnostic printing uses: `lookup`
returns the source for a file id, and `range` is `WorldExt::range`,
resolving a span to a byte range in its source (it may fail). -/
structure SystemWorld where
  lookup : FileId → Source
  range : Span → Option (Nat × Nat)

/-- `label`: `Some(Label::primary(span.id()?, world.range(span)?))` —
`None` as soon as the span is detached or the range lookup fails. -/
def label (w : SystemWorld) (span : Span) : Option Label :=
  match span.id with
  | none => none
  | some fid =>
    match w.range span with
    | none => none
    | some r => some ⟨fid, r⟩

/-- The main block built for one diagnostic: severity carried over,
message copied, each hint rendered as a `"hint: "` note, and the label
(when resolvable) attached. -/
def mainDiag (w : SystemWorld) (d : SourceDiagnostic) : Diag :=
  { severity :=
      match d.severity with
      | .error => DiagSeverity.error
      | .warning => DiagSeverity.warning
    message := d.message
    notes := d.hints.map (fun e => "hint: " ++ e)
    labels := (label w d.span).toList }

/-- The auxiliary block built for one trace point: help severity, the
point's message, and its best-effort label. -/
def helpDiag (w : SystemWorld) (p : TracePoint) : Diag :=
  { severity := DiagSeverity.help
    message := p.v
    labels := (label w p.span).toList
    notes := [] }

/-- The body of the `for diagnostic in warnings.iter().chain(errors)`
loop in `print_diagnostics`: build the main block, emit it (modelled as
appending it to the output stream), then emit one help block per trace
point. -/
def emitOne (w : SystemWorld) (out : List Diag) (d : SourceDiagnostic) :
    List Diag :=
  let diag : Diag :=
    { severity :=
        match d.severity with
        | .error => DiagSeverity.error
        | .warning => DiagSeverity.warning
      message := d.message
      notes := d.hints.map (fun e => "hint: " ++ e)
      labels := (label w d.span).toList }
  let out1 := out ++ [diag]
  d.trace.foldl
    (fun acc p =>
      acc ++ [{ severity := DiagSeverity.help
                message := p.v
                labels := (label w p.span).toList
                notes := [] }])
    out1

/-- `print_diagnostics(world, errors, warnings)`: iterate over
`warnings.iter().chain(errors)` emitting blocks in order; the emitted
stream is returned as a list. -/
def print_diagnostics (w : SystemWorld)
    (errors warnings : List SourceDiagnostic) : List Diag :=
  (warnings ++ errors).foldl (emitOne w) []

/-- The block sequence a single diagnostic contributes to the stream. -/
def diagBlocks (w : SystemWorld) (d : SourceDiagnostic) : List Diag :=
  mainDiag w d :: d.trace.map (helpDiag w)

theorem foldl_append_singleton {α β : Type} (f : β → α) (l : List β)
    (acc : List α) :
    l.foldl (fun a b => a ++ [f b]) acc = acc ++ l.map f := by
  induction l generalizing acc with
  | nil => simp
  | cons x xs ih => simp [ih, List.append_assoc]

theorem emitOne_eq (w : SystemWorld) (out : List Diag)
    (d : SourceDiagnostic) :
    emitOne w out d = out ++ diagBlocks w d := by
  show d.trace.foldl (fun a p => a ++ [helpDiag w p]) (out ++ [mainDiag w d])
      = out ++ diagBlocks w d
  rw [foldl_append_singleton]
  simp [diagBlocks]

theorem print_diagnostics_eq_flatten (w : SystemWorld)
    (errors warnings : List SourceDiagnostic) :
    print_diagnostics w errors warnings
      = ((warnings ++ errors).map (diagBlocks w)).flatten := by
  unfold print_diagnostics
  have haux : ∀ (ds : List SourceDiagnostic) (acc : List Diag),
      ds.foldl (emitOne w) acc = acc ++ (ds.map (diagBlocks w)).flatten := by
    intro ds
    induction ds with
    | nil => intro acc; simp
    | cons x xs ih => intro acc; simp [emitOne_eq, ih, List.append_assoc]
  simpa using haux (warnings ++ errors) []

/-- **C4.** The blocks emitted by `print_diagnostics` are exactly the
per-diagnostic block sequences of all warnings, in input order, followed
by those of all errors, in input order — none dropped; each diagnostic
contributes its main block followed by exactly one help-severity
auxiliary block per trace point, the main block carries the message and
one `"hint: "` note per hint, and each auxiliary block carries the trace
point's message and its best-effort resolved label. -/
theorem print_diagnostics_order_and_content (w : SystemWorld)
    (errors warnings : List SourceDiagnostic) :
    print_diagnostics w errors warnings
      = (warnings.map (diagBlocks w)).flatten
        ++ (errors.map (diagBlocks w)).flatten ∧
    (∀ d : SourceDiagnostic,
      diagBlocks w d = mainDiag w d :: d.trace.map (helpDiag w) ∧
      (mainDiag w d).message = d.message ∧
      (mainDiag w d).notes = d.hints.map (fun e => "hint: " ++ e) ∧
      (mainDiag w d).labels = (label w d.span).toList) ∧
    (∀ p : TracePoint,
      (helpDiag w p).severity = DiagSeverity.help ∧
      (helpDiag w p).message = p.v ∧
      (helpDiag w p).labels = (label w p.span).toList) := by
  refine ⟨?_, fun d => ⟨rfl, rfl, rfl, rfl⟩, fun p => ⟨rfl, rfl, rfl⟩⟩
  rw [print_diagnostics_eq_flatten]
  simp

/-- **C5.** A diagnostic whose label is unresolvable (detached span or
failed range lookup) is still emitted in place: its main block keeps the
message and all hints but carries no label, and the blocks of the
diagnostics before and after it are exactly what they would be anyway. -/
theorem unresolvable_span_diag_still_emitted (w : SystemWorld)
    (errors warnings pre post : List SourceDiagnostic)
    (d : SourceDiagnostic)
    (hsplit : warnings ++ errors = pre ++ d :: post)
    (hlabel : label w d.span = none) :
    (mainDiag w d).labels = [] ∧
    (mainDiag w d).message = d.message ∧
    (mainDiag w d).notes = d.hints.map (fun e => "hint: " ++ e) ∧
    print_diagnostics w errors warnings
      = (pre.map (diagBlocks w)).flatten
        ++ diagBlocks w d
        ++ (post.map (diagBlocks w)).flatten := by
  refine ⟨?_, rfl, rfl, ?_⟩
  · simp [mainDiag, hlabel]
  · rw [print_diagnostics_eq_flatten, hsplit]
    simp

/-- A world with a single empty source and no resolvable ranges. -/
def worldA : SystemWorld := ⟨fun _ => ⟨[]⟩, fun _ => none⟩

/-- A warning diagnostic with a (spanned) location. -/
def diagWarnA : SourceDiagnostic :=
  ⟨.warning, .spanned 0 5, "unused variable", [], []⟩

/-- An error diagnostic whose span is detached, with a hint and a
trace point. -/
def diagDetachedA : SourceDiagnostic :=
  ⟨.error, .detached, "unknown font family",
   [⟨"error occurred in this call of function", .detached⟩],
   ["add the font file to the project"]⟩

/-- Witness for C5 at concrete inputs: a detached-span error after one
warning is emitted with its message, hint and no label, leaving the
warning's blocks intact. -/
theorem unresolvable_span_diag_still_emitted_witness :
    ([diagWarnA] ++ [diagDetachedA]
        = [diagWarnA] ++ diagDetachedA :: ([] : List SourceDiagnostic)) ∧
    label worldA diagDetachedA.span = none ∧
    (mainDiag worldA diagDetachedA).labels = [] ∧
    print_diagnostics worldA [diagDetachedA] [diagWarnA]
      = ([diagWarnA].map (diagBlocks worldA)).flatten
        ++ diagBlocks worldA diagDetachedA
        ++ (([] : List SourceDiagnostic).map (diagBlocks worldA)).flatten := by
  have h := unresolvable_span_diag_still_emitted worldA
    [diagDetachedA] [diagWarnA] [diagWarnA] [] diagDetachedA rfl rfl
  exact ⟨rfl, rfl, h.1, h.2.2.2⟩

/-! ## Source position lookups (`codespan_reporting::files::Files` impl
for `SystemWorld` in `src/export.rs`) -/

/-- UTF-8 byte width of a codepoint. -/
def utf8Width (c : Char) : Nat :=
  if c.toNat < 0x80 then 1
  else if c.toNat < 0x800 then 2
  else if c.toNat < 0x10000 then 3
  else 4

/-- `Source::len_bytes`: the UTF-8 byte length of the text. -/
def Source.len_bytes (s : Source) : Nat :=
  (s.text.map utf8Width).sum

/-- Number of newline codepoints whose bytes lie entirely before byte
offset `off`. -/
def countNewlinesTo : List Char → Nat → Nat
  | _, 0 => 0
  | [], _ => 0
  | c :: cs, off =>
      let wc := utf8Width c
      if wc ≤ off then
        (if c = '\x0a' then 1 else 0) + countNewlinesTo cs (off - wc)
      else 0

/-- Modelled from the spec: `typst::syntax::Source::byte_to_line`, which
the repository calls but does not define. It returns the zero-based line
containing the byte offset and, per the spec, fails with no value
exactly when `offset > len_bytes`. -/
def Source.byte_to_line (s : Source) (offset : Nat) : Option Nat :=
  if offset ≤ s.len_bytes then some (countNewlinesTo s.text offset) else none

/-- Walk the text consuming `off` bytes while tracking the zero-based
codepoint column since the last newline; `none` when `off` lands inside
a multi-byte codepoint or runs past the end of the text. -/
def columnAt : List Char → Nat → Nat → Option Nat
  | _, 0, col => some col
  | [], _ + 1, _ => none
  | c :: cs, off, col =>
      let wc := utf8Width c
      if wc ≤ off then
        columnAt cs (off - wc) (if c = '\x0a' then 0 else col + 1)
      else none

/-- Modelled from the spec: `typst::syntax::Source::byte_to_column`,
which the repository calls but does not define. Columns are counted by
codepoint, not raw byte; it fails with no value when the offset is not a
codepoint boundary or lies beyond the text. -/
def Source.byte_to_column (s : Source) (offset : Nat) : Option Nat :=
  columnAt s.text offset 0

/-- `codespan_reporting::files::Error`: the variants this code
constructs. -/
inductive CodespanError
  | indexTooLarge (given max : Nat)
  | lineTooLarge (given max : Nat)
  | invalidCharBoundary (given : Nat)
deriving DecidableEq, Repr

/-- `SystemWorld::line_index`: delegate to `byte_to_line`, mapping a
lookup failure to `IndexTooLarge { given, max: source.len_bytes() }`. -/
def SystemWorld.line_index (w : SystemWorld) (id : FileId) (given : Nat) :
    Except CodespanError Nat :=
  let source := w.lookup id
  match source.byte_to_line given with
  | some l => .ok l
  | none => .error (.indexTooLarge given source.len_bytes)

/-- `SystemWorld::column_number`: the second (line index) argument is
ignored (`_: usize` in the source); delegate to `byte_to_column`,
mapping a failure to `InvalidCharBoundary { given }` when
`given <= max` and to `IndexTooLarge { given, max }` otherwise. -/
def SystemWorld.column_number (w : SystemWorld) (id : FileId) (_ : Nat)
    (given : Nat) : Except CodespanError Nat :=
  let source := w.lookup id
  match source.byte_to_column given with
  | some c => .ok c
  | none =>
      let mx := source.len_bytes
      if given ≤ mx then .error (.invalidCharBoundary given)
      else .error (.indexTooLarge given mx)

/-- **C7.** For every file whose source text has byte length `L` and
every offset strictly greater than `L`, the line lookup fails with an
index-too-large error carrying `given` = the offset and `max` = `L`; in
particular it does so at offset `L + 1`. -/
theorem line_index_out_of_range (w : SystemWorld) (id : FileId)
    (given : Nat) (h : (w.lookup id).len_bytes < given) :
    w.line_index id given
      = .error (.indexTooLarge given (w.lookup id).len_bytes) ∧
    w.line_index id ((w.lookup id).len_bytes + 1)
      = .error (.indexTooLarge ((w.lookup id).len_bytes + 1)
          (w.lookup id).len_bytes) := by
  constructor
  · simp [SystemWorld.line_index, Source.byte_to_line, Nat.not_le.mpr h]
  · simp [SystemWorld.line_index, Source.byte_to_line]

/-- A world holding the two-byte source text `"ab"` in every file. -/
def worldB : SystemWorld := ⟨fun _ => ⟨['a', 'b']⟩, fun _ => none⟩

/-- Witness for C7: on a 2-byte source, offset 3 fails with
`given = 3, max = 2`. -/
theorem line_index_out_of_range_witness :
    (worldB.lookup 0).len_bytes < 3 ∧
    worldB.line_index 0 3
      = .error (.indexTooLarge 3 (worldB.lookup 0).len_bytes) :=
  ⟨by decide, (line_index_out_of_range worldB 0 3 (by decide)).1⟩

/-- **C8.** Whenever the column lookup's underlying `byte_to_column`
fails, `column_number` reports an invalid-character-boundary error
carrying the offset if the offset is within the text's byte length, and
an index-too-large error carrying the offset and the byte length if it
is beyond it. -/
theorem column_number_failure_kinds (w : SystemWorld) (id : FileId)
    (line given : Nat)
    (h : (w.lookup id).byte_to_column given = none) :
    (given ≤ (w.lookup id).len_bytes →
      w.column_number id line given
        = .error (.invalidCharBoundary given)) ∧
    ((w.lookup id).len_bytes < given →
      w.column_number id line given
        = .error (.indexTooLarge given (w.lookup id).len_bytes)) := by
  constructor
  · intro hr
    simp [SystemWorld.column_number, h, hr]
  · intro hr
    simp [SystemWorld.column_number, h, Nat.not_le.mpr hr]

/-- A world holding the source text `"café"` (byte length 5) in every
file. -/
def worldC : SystemWorld :=
  ⟨fun _ => ⟨['c', 'a', 'f', 'é']⟩, fun _ => none⟩

/-- Witness for C8 on `"café"`: offset 4 falls inside the two-byte
codepoint and yields invalid-character-boundary with `given = 4`, while
offset 6 is past the 5-byte text and yields index-too-large with
`given = 6, max = 5`. -/
theorem column_number_failure_kinds_witness :
    (worldC.lookup 0).byte_to_column 4 = none ∧
    worldC.column_number 0 9 4 = .error (.invalidCharBoundary 4) ∧
    (worldC.lookup 0).byte_to_column 6 = none ∧
    worldC.column_number 0 9 6 = .error (.indexTooLarge 6 5) :=
  ⟨by decide,
   (column_number_failure_kinds worldC 0 9 4 (by decide)).1 (by decide),
   by decide,
   (column_number_failure_kinds worldC 0 9 6 (by decide)).2 (by decide)⟩

/-- **C9.** `column_number` ignores its line-index argument entirely:
for every world, file id and offset, any two values of that argument
produce the same result. -/
theorem column_number_ignores_line_arg (w : SystemWorld) (id : FileId)
    (l1 l2 given : Nat) :
    w.column_number id l1 given = w.column_number id l2 given := rfl

/-! ## PDF export driver (`export_pdf` in `src/export.rs`) -/

/-- A compiled document (`typst::model::Document`), opaque here. -/
structure Document where
  pages : Nat
deriving DecidableEq, Repr

/-- The outcomes of the effectful steps `export_pdf` performs, fixed by
the environment: reading the main source (`world.source(world.main())`),
compiling (`typst::compile`), the tracer's accumulated warnings, and
writing the output file (`fs::write`). -/
structure ExportEnv where
  sourceResult : Except (List SourceDiagnostic) Unit
  compileResult : Except (List SourceDiagnostic) Document
  warnings : List SourceDiagnostic
  writeResult : Except String Unit

/-- Modelled from the spec: `set_failed` lives in the crate root, which
is not among the given source files; per the spec it sets a process-wide
failure flag read later by an external collaborator. A run's outcome
records the flag's final value, the diagnostic blocks printed, and the
function's return value. -/
structure ExportOutcome where
  failed : Bool
  emitted : List Diag
  result : Except String Unit

/-- `export_pdf`: if the main file cannot be read, call `set_failed`,
print its errors (with no warnings) and return `Ok(())`; otherwise
compile. On compile success, write the PDF — returning early with a
`"failed to write PDF file"` error if the write fails — and only then
print the warnings. On compile failure, call `set_failed` and print the
errors together with the warnings. -/
def export_pdf (w : SystemWorld) (env : ExportEnv) : ExportOutcome :=
  match env.sourceResult with
  | .error errors =>
      { failed := true
        emitted := print_diagnostics w errors []
        result := .ok () }
  | .ok _ =>
    match env.compileResult with
    | .ok _document =>
        match env.writeResult with
        | .error err =>
            { failed := false
              emitted := []
              result := .error ("failed to write PDF file (" ++ err ++ ")") }
        | .ok _ =>
            { failed := false
              emitted := print_diagnostics w [] env.warnings
              result := .ok () }
    | .error errors =>
        { failed := true
          emitted := print_diagnostics w errors env.warnings
          result := .ok () }

theorem no_error_blocks_of_warnings (w : SystemWorld)
    (warnings : List SourceDiagnostic)
    (hw : ∀ d ∈ warnings, d.severity = Severity.warning) :
    ∀ b ∈ print_diagnostics w [] warnings,
      b.severity ≠ DiagSeverity.error := by
  intro b hb hcontra
  rw [print_diagnostics_eq_flatten] at hb
  simp only [List.append_nil, List.mem_flatten, List.mem_map] at hb
  obtain ⟨bl, ⟨d, hd, rfl⟩, hbbl⟩ := hb
  simp only [diagBlocks, List.mem_cons] at hbbl
  rcases hbbl with hmain | htrace
  · subst hmain
    have hsev := hw d hd
    simp [mainDiag, hsev] at hcontra
  · obtain ⟨p, hp, rfl⟩ := List.mem_map.mp htrace
    simp [helpDiag] at hcontra

/-- **C6.** The failure flag is set exactly on the two error paths: it
is set whenever the main file cannot be read and whenever compilation
returns errors; whenever an error-severity block is emitted (given that
the tracer's warnings are warning-severity) the flag is set; and a run
whose main file reads and whose compilation succeeds — which emits at
most warnings — leaves the flag unset. -/
theorem export_pdf_failure_flag (w : SystemWorld) (env : ExportEnv)
    (hw : ∀ d ∈ env.warnings, d.severity = Severity.warning) :
    (∀ e, env.sourceResult = Except.error e →
        (export_pdf w env).failed = true) ∧
    (env.sourceResult = Except.ok () →
      ∀ e, env.compileResult = Except.error e →
        (export_pdf w env).failed = true) ∧
    ((∃ b ∈ (export_pdf w env).emitted, b.severity = DiagSeverity.error) →
        (export_pdf w env).failed = true) ∧
    (env.sourceResult = Except.ok () →
      ∀ doc, env.compileResult = Except.ok doc →
        (export_pdf w env).failed = false) := by
  obtain ⟨src, cmp, warns, wr⟩ := env
  cases src with
  | error es =>
      refine ⟨fun e he => rfl, fun h => Except.noConfusion h,
        fun _ => rfl, fun h => Except.noConfusion h⟩
  | ok u =>
      cases u
      cases cmp with
      | error es =>
          refine ⟨fun e he => Except.noConfusion he, fun _ e he => rfl,
            fun _ => rfl, fun _ doc hdoc => Except.noConfusion hdoc⟩
      | ok doc0 =>
          cases wr with
          | error msg =>
              refine ⟨fun e he => Except.noConfusion he,
                fun _ e he => Except.noConfusion he, ?_,
                fun _ doc hdoc => rfl⟩
              rintro ⟨b, hb, hsev⟩
              simp [export_pdf] at hb
          | ok u2 =>
              cases u2
              refine ⟨fun e he => Except.noConfusion he,
                fun _ e he => Except.noConfusion he, ?_,
                fun _ doc hdoc => rfl⟩
              rintro ⟨b, hb, hsev⟩
              simp only [export_pdf] at hb
              exact absurd hsev (no_error_blocks_of_warnings w warns hw b hb)

/-- An environment where the main file reads, compilation fails with
one error, and one warning was traced. -/
def envCompileFail : ExportEnv :=
  ⟨.ok (), .error [diagDetachedA], [diagWarnA], .ok ()⟩

/-- An environment where everything succeeds and one warning was
traced. -/
def envWarnOnly : ExportEnv :=
  ⟨.ok (), .ok ⟨1⟩, [diagWarnA], .ok ()⟩

/-- Witness for C6: the compile-failure run sets the flag; the
warnings-only run leaves it unset. -/
theorem export_pdf_failure_flag_witness :
    (export_pdf worldA envCompileFail).failed = true ∧
    (export_pdf worldA envWarnOnly).failed = false := by
  have hw1 : ∀ d ∈ envCompileFail.warnings,
      d.severity = Severity.warning := by
    intro d hd
    simp only [envCompileFail, List.mem_singleton] at hd
    subst hd; rfl
  have hw2 : ∀ d ∈ envWarnOnly.warnings,
      d.severity = Severity.warning := by
    intro d hd
    simp only [envWarnOnly, List.mem_singleton] at hd
    subst hd; rfl
  exact ⟨(export_pdf_failure_flag worldA envCompileFail hw1).2.1 rfl
           [diagDetachedA] rfl,
         (export_pdf_failure_flag worldA envWarnOnly hw2).2.2.2 rfl ⟨1⟩ rfl⟩

/-- **C10.** When the main file reads and compilation succeeds, a failed
output write makes `export_pdf` return the write error immediately with
nothing emitted — the warnings are never printed; only after a
successful write are the warnings printed. -/
theorem export_pdf_write_failure_suppresses_warnings (w : SystemWorld)
    (env : ExportEnv) (hsrc : env.sourceResult = Except.ok ())
    (doc : Document) (hcmp : env.compileResult = Except.ok doc) :
    (∀ err, env.writeResult = Except.error err →
        (export_pdf w env).result
            = .error ("failed to write PDF file (" ++ err ++ ")") ∧
        (export_pdf w env).emitted = []) ∧
    (env.writeResult = Except.ok () →
        (export_pdf w env).emitted
            = print_diagnostics w [] env.warnings) := by
  obtain ⟨src, cmp, warns, wr⟩ := env
  simp only at hsrc hcmp
  subst hsrc; subst hcmp
  cases wr with
  | error msg =>
      refine ⟨fun err herr => ?_, fun h => Except.noConfusion h⟩
      injection herr with hmsg
      subst hmsg
      exact ⟨rfl, rfl⟩
  | ok u =>
      cases u
      refine ⟨fun err herr => Except.noConfusion herr, fun _ => rfl⟩

/-- An environment where compilation succeeds but the output write
fails. -/
def envWriteFail : ExportEnv :=
  ⟨.ok (), .ok ⟨1⟩, [diagWarnA], .error "disk full"⟩

/-- Witness for C10: with a failing write, `export_pdf` returns the
write error and prints nothing. -/
theorem export_pdf_write_failure_suppresses_warnings_witness :
    (export_pdf worldA envWriteFail).result
        = .error ("failed to write PDF file (" ++ "disk full" ++ ")") ∧
    (export_pdf worldA envWriteFail).emitted = [] :=
  (export_pdf_write_failure_suppresses_warnings worldA envWriteFail rfl
    ⟨1⟩ rfl).1 "disk full" rfl

end MdbookTypstPdf
